import Mathlib

/-!
Verification development for the continuous-apply rollout engine.

The Go sources under pkg/rollout, pkg/issues, pkg/applier and
cmd/continuous-apply (package poller) are shallowly embedded below:
pure fragments become Lean functions, the mutable Poller / Manager /
object state becomes explicit record passing, and fallible calls to
the GitHub client or the cluster are passed in as explicit
(Option-valued) oracles.  Go int32 replica counters are modelled as
Int (the values involved are far below overflow), Go strings as Lean
String or List Char.
-/

namespace ContinuousApply

/-! ### Decimal rendering (model of fmt %d / strconv.Itoa on a natural) -/

/-- One decimal digit as a character. -/
def digitChar (d : Nat) : Char :=
  match d with
  | 0 => '0' | 1 => '1' | 2 => '2' | 3 => '3' | 4 => '4'
  | 5 => '5' | 6 => '6' | 7 => '7' | 8 => '8' | 9 => '9'
  | _ => '*'

/-- Big-endian decimal digits of n, with fuel for structural recursion
(fuel at least n always suffices). -/
def natCharsAux : Nat → Nat → List Char
  | 0, _ => []
  | fuel + 1, n =>
    if n = 0 then [] else natCharsAux fuel (n / 10) ++ [digitChar (n % 10)]

/-- Big-endian decimal rendering of a natural number; models what Go
prints for a non-negative integer with %d. -/
def natChars (n : Nat) : List Char :=
  if n = 0 then ['0'] else natCharsAux n n

def natStr (n : Nat) : String :=
  String.mk (natChars n)

/-- Decimal rendering of an Int, models fmt %d on int32 values. -/
def intStr (i : Int) : String :=
  if i < 0 then "-" ++ natStr i.natAbs else natStr i.natAbs

/-! ### pkg/rollout/rolloutstatus.go -/

/-- One entry of appsv1.DeploymentStatus.Conditions, restricted to the
fields the code reads. -/
structure DeploymentCondition where
  condType : String
  reason : String
deriving DecidableEq, Repr

/-- The fields of an appsv1.Deployment read by
DeploymentStatusViewer.Status.  `revisionValue` models the result of
rollout.Revision(deployment) (annotation parsing is outside this
model): none stands for a ParseInt failure, some r for a parsed
revision r (absent annotation gives some 0 in the source). -/
structure Deployment where
  generation : Int
  observedGeneration : Int
  conditions : List DeploymentCondition
  replicas : Option Int
  updatedReplicas : Int
  statusReplicas : Int
  availableReplicas : Int
  revisionValue : Option Int
deriving DecidableEq, Repr

/-- The three-valued Go return (message, done, err). -/
structure StatusResult where
  message : String
  done : Bool
  err : Option String
deriving DecidableEq, Repr

/-- GetDeploymentCondition: first condition of the requested type. -/
def GetDeploymentCondition (conds : List DeploymentCondition) (t : String) :
    Option DeploymentCondition :=
  conds.find? (fun c => c.condType == t)

def quoted (name : String) : String := "\"" ++ name ++ "\""

/-- The second and third replica comparisons of
DeploymentStatusViewer.Status and the success return (source lines
124-130). -/
def deploymentReplicaTail (name : String) (d : Deployment) : StatusResult :=
  if d.statusReplicas > d.updatedReplicas then
    ⟨"Waiting for deployment " ++ quoted name ++ " rollout to finish: " ++
      intStr (d.statusReplicas - d.updatedReplicas) ++
      " old replicas are pending termination...\n", false, none⟩
  else if d.availableReplicas < d.updatedReplicas then
    ⟨"Waiting for deployment " ++ quoted name ++ " rollout to finish: " ++
      intStr d.availableReplicas ++ " of " ++ intStr d.updatedReplicas ++
      " updated replicas are available...\n", false, none⟩
  else
    ⟨"deployment " ++ quoted name ++ " successfully rolled out\n", true, none⟩

/-- The ordered replica comparisons (source lines 121-130); the first
comparison only fires when Spec.Replicas is non-nil, as in the Go
short-circuit `deployment.Spec.Replicas != nil && ...`. -/
def deploymentReplicaStatus (name : String) (d : Deployment) : StatusResult :=
  match d.replicas with
  | some r =>
    if d.updatedReplicas < r then
      ⟨"Waiting for deployment " ++ quoted name ++ " rollout to finish: " ++
        intStr d.updatedReplicas ++ " out of " ++ intStr r ++
        " new replicas have been updated...\n", false, none⟩
    else deploymentReplicaTail name d
  | none => deploymentReplicaTail name d

/-- Body of the `deployment.Generation <= ObservedGeneration` branch of
DeploymentStatusViewer.Status and its else (source lines 116-132).
`name` is the rendered namespaced-name string. -/
def deploymentObservedStatus (name : String) (d : Deployment) : StatusResult :=
  if d.generation ≤ d.observedGeneration then
    match GetDeploymentCondition d.conditions "Progressing" with
    | some cond =>
      if cond.reason == "ProgressDeadlineExceeded" then
        ⟨"", false, some ("deployment " ++ quoted name ++ " exceeded its progress deadline")⟩
      else deploymentReplicaStatus name d
    | none => deploymentReplicaStatus name d
  else
    ⟨"Waiting for deployment spec update to be observed...\n", false, none⟩

/-- DeploymentStatusViewer.Status (pkg/rollout/rolloutstatus.go lines
101-133), after the cluster Get succeeded. -/
def DeploymentStatusViewer.Status (name : String) (revision : Int)
    (d : Deployment) : StatusResult :=
  if revision > 0 then
    match d.revisionValue with
    | none =>
      ⟨"", false, some ("cannot get the revision of deployment " ++ quoted name)⟩
    | some deploymentRev =>
      if revision ≠ deploymentRev then
        ⟨"", false, some ("desired revision (" ++ intStr revision ++
          ") is different from the running revision (" ++ intStr deploymentRev ++ ")")⟩
      else deploymentObservedStatus name d
  else deploymentObservedStatus name d

/-- The fields of an appsv1.StatefulSet read by
StatefulSetStatusViewer.Status.  `rollingUpdate = some p` models a
non-nil Spec.UpdateStrategy.RollingUpdate with Partition pointer p
(itself optional). -/
structure StatefulSet where
  generation : Int
  observedGeneration : Int
  strategyType : String
  rollingUpdate : Option (Option Int)
  replicas : Option Int
  readyReplicas : Int
  updatedReplicas : Int
  currentReplicas : Int
  updateRevision : String
  currentRevision : String
deriving DecidableEq, Repr

/-- Body of the RollingUpdate branch of StatefulSetStatusViewer.Status
(source lines 177-186): the partition comparison only fires when both
Spec.Replicas and RollingUpdate.Partition are non-nil, mirroring the Go
nil checks; otherwise the branch falls through to the complete
message. `partition` is Spec.UpdateStrategy.RollingUpdate.Partition. -/
def statefulSetPartitionStatus (sts : StatefulSet) (partition : Option Int) :
    StatusResult :=
  match sts.replicas, partition with
  | some r, some p =>
    if sts.updatedReplicas < r - p then
      ⟨"Waiting for partitioned roll out to finish: " ++
        intStr sts.updatedReplicas ++ " out of " ++ intStr (r - p) ++
        " new pods have been updated...\n", false, none⟩
    else
      ⟨"partitioned roll out complete: " ++ intStr sts.updatedReplicas ++
        " new pods have been updated...\n", true, none⟩
  | _, _ =>
    ⟨"partitioned roll out complete: " ++ intStr sts.updatedReplicas ++
      " new pods have been updated...\n", true, none⟩

/-- The ready-replicas comparison of StatefulSetStatusViewer.Status
(source lines 174-176), firing only when Spec.Replicas is non-nil. -/
def statefulSetReadyShort (sts : StatefulSet) : Bool :=
  match sts.replicas with
  | some r => sts.readyReplicas < r
  | none => false

/-- StatefulSetStatusViewer.Status (pkg/rollout/rolloutstatus.go lines
161-193), after the cluster Get succeeded; the revision argument is
ignored exactly as in the source. -/
def StatefulSetStatusViewer.Status (sts : StatefulSet) : StatusResult :=
  if sts.strategyType == "OnDelete" then
    ⟨"", true, some "OnDelete updateStrategy does not have a Status`"⟩
  else if sts.observedGeneration == 0 || sts.generation > sts.observedGeneration then
    ⟨"Waiting for statefulset spec update to be observed...\n", false, none⟩
  else if statefulSetReadyShort sts then
    ⟨"Waiting for " ++
      intStr (sts.replicas.getD 0 - sts.readyReplicas) ++
      " pods to be ready...\n", false, none⟩
  else if sts.strategyType == "RollingUpdate" && sts.rollingUpdate.isSome then
    statefulSetPartitionStatus sts (sts.rollingUpdate.getD none)
  else if sts.updateRevision ≠ sts.currentRevision then
    ⟨"waiting for statefulset rolling update to complete " ++
      intStr sts.updatedReplicas ++ " pods at revision " ++
      sts.updateRevision ++ "...\n", false, none⟩
  else
    ⟨"statefulset rolling update complete " ++ intStr sts.currentReplicas ++
      " pods at revision " ++ sts.currentRevision ++ "...\n", true, none⟩

/-- The concrete Go types switched over in GetStatusViewer. -/
inductive K8sObjectType where
  | extensionsV1beta1Deployment
  | appsV1beta1Deployment
  | appsV1beta2Deployment
  | appsV1Deployment
  | appsV1beta1StatefulSet
  | appsV1beta2StatefulSet
  | appsV1StatefulSet
  | extensionsV1beta1DaemonSet
  | appsV1beta2DaemonSet
  | appsV1DaemonSet
  | unstructured
  | otherKind
deriving DecidableEq, Repr, Inhabited

inductive ViewerKind where
  | deploymentViewer
  | daemonSetViewer
  | statefulSetViewer
deriving DecidableEq, Repr

/-- GetStatusViewer (pkg/rollout/rolloutstatus.go lines 41-76): the
type switch mapping object types to viewers; the unstructured case and
the default case both return nil, modelled as none. -/
def GetStatusViewer : K8sObjectType → Option ViewerKind
  | .extensionsV1beta1Deployment => some .deploymentViewer
  | .appsV1beta1Deployment => some .deploymentViewer
  | .appsV1beta2Deployment => some .deploymentViewer
  | .appsV1Deployment => some .deploymentViewer
  | .appsV1beta1StatefulSet => some .statefulSetViewer
  | .appsV1beta2StatefulSet => some .statefulSetViewer
  | .appsV1StatefulSet => some .statefulSetViewer
  | .extensionsV1beta1DaemonSet => some .daemonSetViewer
  | .appsV1beta2DaemonSet => some .daemonSetViewer
  | .appsV1DaemonSet => some .daemonSetViewer
  | .unstructured => none
  | .otherKind => none

/-! ### The rollout-marker regex (pkg/issues/issues.go line 138 and
cmd/continuous-apply manage_issues.go line 179)

    rolloutRegex = \[pull-request\]: #(\d+)\s+\[commit\]: ([a-z0-9]+)\s+

FindStringSubmatch returns the leftmost match.  Because each
one-or-more character class in the pattern is immediately followed by
a literal or class it is disjoint from (digits then whitespace,
whitespace then a bracket, lower-alphanumerics then whitespace), the
greedy backtracking semantics coincide with maximal munch, which is
what the matcher below implements. -/

/-- Membership in the Go regexp class \s, i.e. [\t\n\f\r ]. -/
def isSpaceGo (c : Char) : Bool :=
  c == ' ' || c == '\t' || c == '\n' || c == '\x0c' || c == '\r'

/-- Membership in the class [a-z0-9]. -/
def isLowerAlnum (c : Char) : Bool :=
  c.isLower || c.isDigit

/-- Consume an exact literal, returning the remainder. -/
def stripLit : List Char → List Char → Option (List Char)
  | [], s => some s
  | _ :: _, [] => none
  | c :: l, d :: s => if c = d then stripLit l s else none

/-- Maximal munch of one-or-more characters satisfying p. -/
def takeWhile1 (p : Char → Bool) (s : List Char) :
    Option (List Char × List Char) :=
  let t := s.takeWhile p
  if t.isEmpty then none else some (t, s.dropWhile p)

/-- Model of strconv.Atoi on a captured digit string (Atoi only fails
on non-digits or overflow, neither of which the regex capture can
produce at realistic sizes). -/
def atoiChars (ds : List Char) : Nat :=
  ds.foldl (fun a c => a * 10 + (c.toNat - 48)) 0

/-- Attempt to match rolloutRegex at the start of s, returning the PR
number (capture 1, through Atoi) and the commit capture (capture 2):
the literal prefix, one-or-more digits, one-or-more whitespace, the
commit literal, one-or-more lower-alphanumerics, one-or-more
whitespace. -/
def rolloutMatchAt (s : List Char) : Option (Nat × List Char) :=
  (stripLit "[pull-request]: #".data s).bind fun s1 =>
  (takeWhile1 Char.isDigit s1).bind fun ds2 =>
  (takeWhile1 isSpaceGo ds2.2).bind fun s3 =>
  (stripLit "[commit]: ".data s3.2).bind fun s4 =>
  (takeWhile1 isLowerAlnum s4).bind fun hs5 =>
  (takeWhile1 isSpaceGo hs5.2).map fun _ => (atoiChars ds2.1, hs5.1)

/-- rolloutRegex.FindStringSubmatch: leftmost match of the pattern,
yielding the parsed captures; none models both a MatchString failure
and an empty FindStringSubmatch result (they agree, being the same
regex). -/
def rolloutRegexFind : List Char → Option (Nat × List Char)
  | [] => rolloutMatchAt []
  | c :: t =>
    match rolloutMatchAt (c :: t) with
    | some r => some r
    | none => rolloutRegexFind t

/-! ### pkg/issues/issues.go -/

/-- bodyTemplate (pkg/issues/issues.go lines 276-284): the rendered
issue body.  n is .PullRequest.GetNumber, commit is .Commit, and
reporterBlock stands for the output of the range block over
.StatusReporters (its content never matters to the marker parser, so
it is kept abstract here). -/
def bodyTemplate (n : Nat) (commit : List Char) (reporterBlock : List Char) :
    List Char :=
  "[pull-request]: #".data ++ natChars n ++
  "\n[commit]: ".data ++ commit ++
  "\n\nRollout #".data ++ natChars n ++
  "\n\n".data ++ reporterBlock

def doneIcon : String :=
  "![done](https://material.io/tools/icons/static/icons/twotone-done-24px.svg)"

def inProgressIcon : String :=
  "![inprogress](https://material.io/tools/icons/static/icons/twotone-cached-24px.svg)"

/-- One configured status reporter (v1beta1.StatusReporters), with the
computed Status/StatusIcon/Done fields the loop writes. -/
structure StatusReporter where
  name : String
  inProgressLabels : List String
  completeLabels : List String
  waitFor : List String
  status : String := ""
  statusIcon : String := ""
  done : Bool := false
deriving DecidableEq, Repr

/-- sets.String.HasAll on the set of the issue label names. -/
def hasAll (labels : List String) (required : List String) : Bool :=
  required.all (fun l => labels.contains l)

/-- One arm of the switch in Manager.UpdateIssueStatus (pkg/issues
lines 102-123): updates the reporter in place and overwrites the
shared state variable. -/
def updateReporter (labels : List String) (t : StatusReporter) :
    StatusReporter × String :=
  if hasAll labels t.completeLabels then
    ({t with status := "Complete", done := true, statusIcon := doneIcon}, "closed")
  else if hasAll labels t.inProgressLabels then
    ({t with status := "In Progress", done := false, statusIcon := inProgressIcon}, "open")
  else
    ({t with status := "Pending", done := false, statusIcon := ""}, "open")

/-- The reporter loop of Manager.UpdateIssueStatus, threading the
shared state variable through the iterations. -/
def updateIssueStatusLoop (labels : List String) :
    List StatusReporter → String → List StatusReporter × String
  | [], state => ([], state)
  | t :: ts, _ =>
    let (t2, st2) := updateReporter labels t
    let (rest, final) := updateIssueStatusLoop labels ts st2
    (t2 :: rest, final)

/-- Manager.UpdateIssueStatus (pkg/issues/issues.go lines 90-136),
restricted to its pure core: from the refreshed label set of the
tracking issue, compute every reporter phase and the issue state that
is written back through Issues.Edit. -/
def Manager.UpdateIssueStatus (labels : List String)
    (reporters : List StatusReporter) : List StatusReporter × String :=
  updateIssueStatusLoop labels reporters ""

/-! ### package poller (cmd/continuous-apply/manage_issues.go) -/

/-- The issue fields the poller filters and parses on.
milestoneTitle models issue.Milestone.GetTitle(), which yields ""
for a nil milestone. -/
structure GhIssue where
  id : Nat
  number : Nat
  state : String
  labels : List String
  assignees : List String
  milestoneTitle : String
  body : List Char
deriving DecidableEq, Repr

/-- The Match* fields of the Poller. -/
structure MatchCriteria where
  matchLabels : List String
  matchAssignee : String
  matchMilestone : String
  matchState : String
deriving DecidableEq, Repr

/-- The candidate filter of Poller.SyncPRs (manage_issues.go lines
302-343): labels (all required present), assignee (some login equal),
milestone (title equal), state (equal, or the configured value is
"all"); each check is skipped when its criterion is unset. -/
def prFilterMatch (p : MatchCriteria) (issue : GhIssue) : Bool :=
  (p.matchLabels.isEmpty || p.matchLabels.all (fun l => issue.labels.contains l)) &&
  (p.matchAssignee == "" || issue.assignees.any (fun a => a == p.matchAssignee)) &&
  (p.matchMilestone == "" || issue.milestoneTitle == p.matchMilestone) &&
  (p.matchState == "" || issue.state == p.matchState || p.matchState == "all")

inductive SyncPRsResult where
  /-- return false, nil: the scanned hash equals the tracked commit -/
  | unchanged
  /-- return true, nil after adopting commit and PR num -/
  | changed (commit : String) (num : Nat)
  /-- the loop exhausted the log: error "no matching PRs found" -/
  | noMatch
  /-- an Issues.Get or PullRequests.Get call failed -/
  | lookupFailure
deriving DecidableEq, Repr

/-- Poller.SyncPRs (manage_issues.go lines 264-356), given the git log
already fetched and split into lines.  Each line is represented by its
prRegex parse: none when FindStringSubmatch yields fewer than 3 groups
(the line is skipped), some (hash, prNum) otherwise.  getIssue models
Issues.Get and prOk models whether PullRequests.Get succeeds. -/
def Poller.SyncPRs (p : MatchCriteria) (tracked : String)
    (getIssue : Nat → Option GhIssue) (prOk : Nat → Bool) :
    List (Option (String × Nat)) → SyncPRsResult
  | [] => .noMatch
  | none :: rest => Poller.SyncPRs p tracked getIssue prOk rest
  | some (commit, num) :: rest =>
    if commit == tracked then .unchanged
    else
      match getIssue num with
      | none => .lookupFailure
      | some issue =>
        if prFilterMatch p issue then
          if prOk num then .changed commit num else .lookupFailure
        else Poller.SyncPRs p tracked getIssue prOk rest

/-- The first parseable merge-commit line of the log. -/
def firstParsedLine (lines : List (Option (String × Nat))) :
    Option (String × Nat) :=
  lines.findSome? id

/-- The tracked state of the Poller: Issue, Pr (by number) and Commit. -/
structure TrackedState where
  issue : Option GhIssue
  pr : Option Nat
  commit : List Char
deriving DecidableEq, Repr

/-- The i = 0 body of the issue loop in Poller.SyncIssues
(manage_issues.go lines 210-251) when the listed issue is new: p.Issue
is assigned first (line 223) — so every branch below, including the
error returns, carries issue := some curr — and only then is the body
checked against rolloutRegex, the PR fetched, and the commit adopted. -/
def syncIssuesResolve (st : TrackedState) (curr : GhIssue)
    (getPr : Nat → Option Nat) (prNum : Nat) (commitChars : List Char) :
    TrackedState × Except String Bool :=
  match getPr prNum with
  | none =>
    ({ st with issue := some curr }, .error "could not get pull request")
  | some prN =>
    if curr.state == "closed" then
      ({ st with issue := some curr, pr := some prN, commit := commitChars },
        .ok false)
    else
      ({ st with issue := some curr, pr := some prN, commit := commitChars },
        .ok true)

def Poller.syncIssuesAdopt (st : TrackedState) (curr : GhIssue)
    (getPr : Nat → Option Nat) : TrackedState × Except String Bool :=
  match rolloutRegexFind curr.body with
  | none =>
    ({ st with issue := some curr },
      .error "Expected rollout marker prefix in issue body")
  | some (prNum, commitChars) =>
    syncIssuesResolve st curr getPr prNum commitChars

/-- The guard p.Issue != nil && p.Issue.GetID() == curr.GetID() of
manage_issues.go line 214. -/
def issueUnchangedCheck (st : TrackedState) (curr : GhIssue) : Bool :=
  match st.issue with
  | some tracked => tracked.id == curr.id
  | none => false

/-- Poller.SyncIssues (manage_issues.go lines 181-260), given the
listed issues (newest first).  Only the first listed issue is ever
acted on (the loop body is guarded by i == 0).  When it is already the
tracked issue, the final closed-state check returns (false, nil)
either way, leaving the state untouched. -/
def Poller.SyncIssues (st : TrackedState) (issues : List GhIssue)
    (getPr : Nat → Option Nat) : TrackedState × Except String Bool :=
  match issues with
  | [] => (st, .error "no matching issues found")
  | curr :: _ =>
    if issueUnchangedCheck st curr then (st, .ok false)
    else Poller.syncIssuesAdopt st curr getPr

/-! ### pkg/applier/apply.go -/

/-- The fields of a rollout.Object touched by the polling loops. -/
structure ManifestObject where
  objType : K8sObjectType
  display : String
  applyStatus : String
  rolloutStatus : String
  rolloutStatusHistory : List String
  done : Bool
deriving DecidableEq, Repr, Inhabited

/-- strings.TrimSpace restricted to the ASCII whitespace the engine
messages can contain. -/
def trimSpaceChars (s : List Char) : List Char :=
  (((s.dropWhile isSpaceGo).reverse).dropWhile isSpaceGo).reverse

def TrimSpace (s : String) : String :=
  String.mk (trimSpaceChars s.data)

/-- The history line appended on a status change (apply.go line 365):
fmt.Sprintf with the RFC822-rendered current time, passed here already
formatted. -/
def histLine (now status : String) : String :=
  "*" ++ now ++ "* - `" ++ status ++ "`"

inductive PollStepOutcome where
  /-- nil status viewer: the object was marked NA and skipped -/
  | skippedNA
  /-- normal poll; d is the done value the engine reported -/
  | polled (d : Bool)
  /-- viewer.Status returned an error: the loop aborts -/
  | failed (e : String)
deriving DecidableEq, Repr

/-- The per-object body of the sequential polling loop (apply.go lines
351-369) once viewer.Status has returned r: o.Done is assigned the
engine result d, then on error the status records the error and the
run aborts, and on a message change a history line is appended. -/
def seqPollApplyStatus (now : String) (r : StatusResult)
    (o : ManifestObject) : ManifestObject × PollStepOutcome :=
  let status := TrimSpace r.message
  let o1 := { o with done := r.done }
  match r.err with
  | some e => ({ o1 with rolloutStatus := "error: " ++ e }, .failed e)
  | none =>
    if o1.rolloutStatus != status then
      ({ o1 with
          rolloutStatus := status,
          rolloutStatusHistory := o1.rolloutStatusHistory ++ [histLine now status] },
        .polled r.done)
    else (o1, .polled r.done)

/-- The per-object body of the sequential polling loop including the
viewer dispatch (apply.go lines 342-369): with no registered viewer
the object is marked rolloutStatus "NA", done, and the engine is never
consulted. -/
def Applier.seqPollObject (now : String) (engine : ViewerKind → StatusResult)
    (o : ManifestObject) : ManifestObject × PollStepOutcome :=
  match GetStatusViewer o.objType with
  | none => ({ o with rolloutStatus := "NA", done := true }, .skippedNA)
  | some v => seqPollApplyStatus now (engine v) o

/-- One iteration of the sequential polling loop over the objects of a
rollout, each object paired with the engine result its viewer returned
this iteration (objects with nil viewers are covered by
Applier.seqPollObject and omitted from this list).  On an engine error
the loop returns immediately, leaving later objects untouched. -/
def seqPollPass (now : String) :
    List (ManifestObject × StatusResult) → List ManifestObject × Option String
  | [] => ([], none)
  | (o, r) :: rest =>
    match seqPollApplyStatus now r o with
    | (o1, .failed e) => (o1 :: rest.map (fun q => q.1), some e)
    | (o1, _) =>
      let (os, e) := seqPollPass now rest
      (o1 :: os, e)

/-- The per-object body of the parallel polling loop (apply.go lines
265-298) once viewer.Status has returned r: unlike the sequential
loop, o.Done is assigned the iteration-wide aggregate flag agg as it
stands when the object is polled (line 276, `o.Done = done`), not the
engine result. -/
def parPollApplyStatus (now : String) (agg : Bool) (r : StatusResult)
    (o : ManifestObject) : ManifestObject × PollStepOutcome :=
  let status := TrimSpace r.message
  let o1 := { o with done := agg }
  match r.err with
  | some e => ({ o1 with rolloutStatus := "error: " ++ e }, .failed e)
  | none =>
    if o1.rolloutStatus != status then
      ({ o1 with
          rolloutStatus := status,
          rolloutStatusHistory := o1.rolloutStatusHistory ++ [histLine now status] },
        .polled r.done)
    else (o1, .polled r.done)

/-- One iteration of the parallel polling loop over every object of
every rollout in poll order, threading the aggregate done flag: it
starts true, each object is assigned its current value, and it is
cleared whenever an engine result is not done (apply.go lines
262-298). -/
def parPollPass (now : String) (agg : Bool) :
    List (ManifestObject × StatusResult) → List ManifestObject × Option String
  | [] => ([], none)
  | (o, r) :: rest =>
    match parPollApplyStatus now agg r o with
    | (o1, .failed e) => (o1 :: rest.map (fun q => q.1), some e)
    | (o1, _) =>
      let (os, e) := parPollPass now (agg && r.done) rest
      (o1 :: os, e)

/-- One rendered history bullet of issueTemplateBody (apply.go line
413). -/
def renderHistoryLine (h : String) : String :=
  "    - " ++ h ++ "\n"

/-- The rendered history block of one object in issueTemplateBody:
the history lines in order, each as one bullet. -/
def renderHistory : List String → String
  | [] => ""
  | h :: t => renderHistoryLine h ++ renderHistory t

/-- The Before*/After* action lists of one phase of the Applier. -/
structure ActionConfig where
  addLabels : List String
  removeLabels : List String
  addAssignees : List String
  removeAssignees : List String
  setState : String
deriving DecidableEq, Repr

/-- Outcomes of the five GitManager calls a before/after phase can
make: none is success, some e an error with message e. -/
structure GitOpResults where
  addLabelsErr : Option String
  removeLabelsErr : Option String
  addAssigneesErr : Option String
  removeAssigneesErr : Option String
  updateStateErr : Option String
deriving DecidableEq, Repr

/-- Applier.beforeActions (apply.go lines 86-110).  AddLabels and
AddAssignees are only invoked for non-empty lists and their failures
abort with a wrapped error; the RemoveLabels and RemoveAssignees
results are deliberately discarded (lines 93 and 101); UpdateIssueState
is invoked only for a non-empty state and its failure aborts. -/
def Applier.beforeActions (a : ActionConfig) (g : GitOpResults) :
    Option String :=
  match a.addLabels, g.addLabelsErr with
  | _ :: _, some e => some ("failed to add labels " ++ e)
  | _, _ =>
    match a.addAssignees, g.addAssigneesErr with
    | _ :: _, some e => some ("failed to add labels " ++ e)
    | _, _ =>
      match a.setState, g.updateStateErr with
      | "", _ => none
      | _, some e => some ("failed to set state " ++ e)
      | _, none => none

/-- Applier.afterActions (apply.go lines 112-137), same shape as
beforeActions with the after-phase wrappings (the AddLabels error is
returned unwrapped, line 115). -/
def Applier.afterActions (a : ActionConfig) (g : GitOpResults) :
    Option String :=
  match a.addLabels, g.addLabelsErr with
  | _ :: _, some e => some e
  | _, _ =>
    match a.addAssignees, g.addAssigneesErr with
    | _ :: _, some e => some ("failed to set assignees " ++ e)
    | _, _ =>
      match a.setState, g.updateStateErr with
      | "", _ => none
      | _, some e => some ("failed to set issue state " ++ e)
      | _, none => none

/-! ### Specification-side definitions

The following definitions follow the words of the claims under check
(not the source); each theorem relating them to the source-derived
functions above says exactly in which sense the source meets them. -/

/-- Claim-side description of the parallel polling loop done flags:
each object is assigned the aggregate flag as it stands when the
object is polled, and the aggregate is and-ed with the engine result
of each object in turn. -/
def aggregateFlagsSpec : Bool → List Bool → List Bool
  | _, [] => []
  | agg, d :: ds => agg :: aggregateFlagsSpec (agg && d) ds

/-- Claim-side description of a merge-commit log entry the PR-log scan
passes over: either the line is not parseable, or its hash differs
from the tracked commit and its issue exists but fails the configured
MatchCriteria. -/
def SkippedEntry (p : MatchCriteria) (getIssue : Nat → Option GhIssue)
    (tracked : String) : Option (String × Nat) → Prop
  | none => True
  | some (c, m) =>
    c ≠ tracked ∧ ∃ i, getIssue m = some i ∧ prFilterMatch p i = false

/-! ## Theorems -/

/-- C8: for every decoded manifest object whose kind has no registered
convergence algorithm (the unstructured case and the default case of
the type switch), GetStatusViewer yields none and the orchestrator
records rolloutStatus "NA" with done = true, independently of the
cluster-backed engine, which is never consulted. -/
theorem unsupported_kind_records_NA (now : String)
    (engine engine2 : ViewerKind → StatusResult) (o : ManifestObject)
    (h : o.objType = .unstructured ∨ o.objType = .otherKind) :
    GetStatusViewer o.objType = none ∧
    Applier.seqPollObject now engine o =
      ({ o with rolloutStatus := "NA", done := true }, .skippedNA) ∧
    Applier.seqPollObject now engine o = Applier.seqPollObject now engine2 o := by
  rcases h with h | h <;>
    simp [Applier.seqPollObject, GetStatusViewer, h]

theorem unsupported_kind_records_NA_witness :
    GetStatusViewer K8sObjectType.unstructured = none ∧
    Applier.seqPollObject "now" (fun _ => ⟨"", false, none⟩)
        (⟨.unstructured, "cm", "", "", [], false⟩ : ManifestObject) =
      (⟨.unstructured, "cm", "", "NA", [], true⟩, .skippedNA) := by
  have h := unsupported_kind_records_NA "now" (fun _ => ⟨"", false, none⟩)
    (fun _ => ⟨"x", true, some "e"⟩)
    (⟨.unstructured, "cm", "", "", [], false⟩ : ManifestObject) (Or.inl rfl)
  exact ⟨h.1, h.2.1⟩

/-- C9: in beforeActions and afterActions, for every configuration, a
failure of a configured AddLabels, AddAssignees or UpdateIssueState
call makes the phase return an error, while the results of the
RemoveLabels and RemoveAssignees calls never influence the outcome. -/
theorem actions_add_fatal_remove_swallowed (a : ActionConfig) (g : GitOpResults) :
    ((a.addLabels ≠ [] → g.addLabelsErr.isSome →
        (Applier.beforeActions a g).isSome) ∧
      (a.addAssignees ≠ [] → g.addAssigneesErr.isSome →
        (Applier.beforeActions a g).isSome) ∧
      (a.setState ≠ "" → g.updateStateErr.isSome →
        (Applier.beforeActions a g).isSome) ∧
      (∀ x y, Applier.beforeActions a
          { g with removeLabelsErr := x, removeAssigneesErr := y } =
        Applier.beforeActions a g)) ∧
    ((a.addLabels ≠ [] → g.addLabelsErr.isSome →
        (Applier.afterActions a g).isSome) ∧
      (a.addAssignees ≠ [] → g.addAssigneesErr.isSome →
        (Applier.afterActions a g).isSome) ∧
      (a.setState ≠ "" → g.updateStateErr.isSome →
        (Applier.afterActions a g).isSome) ∧
      (∀ x y, Applier.afterActions a
          { g with removeLabelsErr := x, removeAssigneesErr := y } =
        Applier.afterActions a g)) := by
  unfold Applier.beforeActions Applier.afterActions
  cases hL : a.addLabels <;> cases hLe : g.addLabelsErr <;>
    cases hA : a.addAssignees <;> cases hAe : g.addAssigneesErr <;>
      cases hSe : g.updateStateErr <;>
        by_cases hs : a.setState = "" <;>
          simp_all

theorem actions_add_fatal_remove_swallowed_witness :
    (Applier.beforeActions ⟨["in-progress"], ["old"], [], [], ""⟩
        ⟨some "boom", some "missing", none, none, none⟩).isSome ∧
    Applier.afterActions ⟨["done"], ["in-progress"], [], [], "closed"⟩
        ⟨none, some "missing", none, some "missing", none⟩ = none := by
  have h := actions_add_fatal_remove_swallowed
    ⟨["in-progress"], ["old"], [], [], ""⟩
    ⟨some "boom", some "missing", none, none, none⟩
  have h2 := actions_add_fatal_remove_swallowed
    ⟨["done"], ["in-progress"], [], [], "closed"⟩
    ⟨none, none, none, none, none⟩
  refine ⟨h.1.1 (by decide) (by decide), ?_⟩
  have h3 := (h2.2.2.2.2 (some "missing") (some "missing"))
  exact h3.trans (by decide)

/-- C5: for every StatefulSet with RollingUpdate strategy, a configured
rolling-update partition, an observed generation and no ready-replica
shortfall, the convergence threshold is
updatedReplicas >= replicas - partition, reported done = true as
"partitioned roll out complete". -/
theorem statefulset_partition_threshold (sts : StatefulSet) (r p : Int)
    (hstrat : sts.strategyType = "RollingUpdate")
    (hru : sts.rollingUpdate = some (some p))
    (hrepl : sts.replicas = some r)
    (hobs : sts.observedGeneration ≠ 0)
    (hgen : sts.generation ≤ sts.observedGeneration)
    (hready : r ≤ sts.readyReplicas) :
    ((StatefulSetStatusViewer.Status sts).done = true ↔
      r - p ≤ sts.updatedReplicas) ∧
    (r - p ≤ sts.updatedReplicas →
      StatefulSetStatusViewer.Status sts =
        ⟨"partitioned roll out complete: " ++ intStr sts.updatedReplicas ++
          " new pods have been updated...\n", true, none⟩) ∧
    (sts.updatedReplicas < r - p →
      StatefulSetStatusViewer.Status sts =
        ⟨"Waiting for partitioned roll out to finish: " ++
          intStr sts.updatedReplicas ++ " out of " ++ intStr (r - p) ++
          " new pods have been updated...\n", false, none⟩) := by
  have hst : StatefulSetStatusViewer.Status sts =
      statefulSetPartitionStatus sts (some p) := by
    unfold StatefulSetStatusViewer.Status
    rw [if_neg (by simp [hstrat]), if_neg (by simp [hobs, hgen, not_lt]),
      if_neg (by simp [statefulSetReadyShort, hrepl, not_lt, hready]),
      if_pos (by simp [hstrat, hru]), hru]
    rfl
  have hps : statefulSetPartitionStatus sts (some p) =
      if sts.updatedReplicas < r - p then
        ⟨"Waiting for partitioned roll out to finish: " ++
          intStr sts.updatedReplicas ++ " out of " ++ intStr (r - p) ++
          " new pods have been updated...\n", false, none⟩
      else
        ⟨"partitioned roll out complete: " ++ intStr sts.updatedReplicas ++
          " new pods have been updated...\n", true, none⟩ := by
    unfold statefulSetPartitionStatus
    rw [hrepl]
  rw [hst, hps]
  constructor
  · by_cases hlt : sts.updatedReplicas < r - p
    · simp [hlt]
      omega
    · simp [hlt]
      omega
  constructor
  · intro hge
    rw [if_neg (by omega)]
  · intro hlt
    rw [if_pos hlt]

theorem statefulset_partition_threshold_witness :
    StatefulSetStatusViewer.Status
        (⟨1, 1, "RollingUpdate", some (some 1), some 3, 3, 2, 2, "rev2", "rev1"⟩ :
          StatefulSet) =
      ⟨"partitioned roll out complete: 2 new pods have been updated...\n",
        true, none⟩ ∧
    (2 : Int) < 3 := by
  have h := statefulset_partition_threshold
    (⟨1, 1, "RollingUpdate", some (some 1), some 3, 3, 2, 2, "rev2", "rev1"⟩ :
      StatefulSet) 3 1 rfl rfl rfl (by decide) (by decide) (by decide)
  exact ⟨(h.2.1 (by decide)).trans (by decide), by decide⟩

/-- C2: for every Deployment whose generation has been observed, whose
requested revision matches (or no revision is requested), and which
has no progress-deadline-exceeded Progressing condition, the status is
computed by the ordered comparisons updated-vs-desired,
total-vs-updated and available-vs-updated, with the corresponding
waiting messages, and succeeds with done = true otherwise. -/
theorem deployment_status_cascade (name : String) (revision : Int)
    (d : Deployment) (r : Int)
    (hgen : d.generation ≤ d.observedGeneration)
    (hrev : revision ≤ 0 ∨ d.revisionValue = some revision)
    (hcond : ∀ c, GetDeploymentCondition d.conditions "Progressing" = some c →
      c.reason ≠ "ProgressDeadlineExceeded")
    (hrepl : d.replicas = some r) :
    (d.updatedReplicas < r →
      DeploymentStatusViewer.Status name revision d =
        ⟨"Waiting for deployment " ++ quoted name ++ " rollout to finish: " ++
          intStr d.updatedReplicas ++ " out of " ++ intStr r ++
          " new replicas have been updated...\n", false, none⟩) ∧
    (r ≤ d.updatedReplicas → d.updatedReplicas < d.statusReplicas →
      DeploymentStatusViewer.Status name revision d =
        ⟨"Waiting for deployment " ++ quoted name ++ " rollout to finish: " ++
          intStr (d.statusReplicas - d.updatedReplicas) ++
          " old replicas are pending termination...\n", false, none⟩) ∧
    (r ≤ d.updatedReplicas → d.statusReplicas ≤ d.updatedReplicas →
      d.availableReplicas < d.updatedReplicas →
      DeploymentStatusViewer.Status name revision d =
        ⟨"Waiting for deployment " ++ quoted name ++ " rollout to finish: " ++
          intStr d.availableReplicas ++ " of " ++ intStr d.updatedReplicas ++
          " updated replicas are available...\n", false, none⟩) ∧
    (r ≤ d.updatedReplicas → d.statusReplicas ≤ d.updatedReplicas →
      d.updatedReplicas ≤ d.availableReplicas →
      DeploymentStatusViewer.Status name revision d =
        ⟨"deployment " ++ quoted name ++ " successfully rolled out\n",
          true, none⟩) := by
  have hst : DeploymentStatusViewer.Status name revision d =
      deploymentReplicaStatus name d := by
    unfold DeploymentStatusViewer.Status
    have hobs : deploymentObservedStatus name d =
        deploymentReplicaStatus name d := by
      unfold deploymentObservedStatus
      rw [if_pos hgen]
      cases hc : GetDeploymentCondition d.conditions "Progressing" with
      | none => rfl
      | some c =>
        have := hcond c hc
        simp only [this]
        rw [if_neg (by simpa using this)]
    rcases hrev with hr | hr
    · rw [if_neg (by omega)]
      exact hobs
    · by_cases hpos : revision > 0
      · rw [if_pos hpos, hr]
        simpa using hobs
      · rw [if_neg hpos]
        exact hobs
  have hrs : deploymentReplicaStatus name d =
      if d.updatedReplicas < r then
        ⟨"Waiting for deployment " ++ quoted name ++ " rollout to finish: " ++
          intStr d.updatedReplicas ++ " out of " ++ intStr r ++
          " new replicas have been updated...\n", false, none⟩
      else deploymentReplicaTail name d := by
    unfold deploymentReplicaStatus
    rw [hrepl]
  rw [hst, hrs]
  unfold deploymentReplicaTail
  refine ⟨fun h1 => by rw [if_pos h1], fun h1 h2 => ?_, fun h1 h2 h3 => ?_,
    fun h1 h2 h3 => ?_⟩
  · rw [if_neg (by omega), if_pos (by omega)]
  · rw [if_neg (by omega), if_neg (by omega), if_pos h3]
  · rw [if_neg (by omega), if_neg (by omega), if_neg (by omega)]

theorem deployment_status_cascade_witness :
    DeploymentStatusViewer.Status "default/nginx" 0
        (⟨1, 1, [], some 3, 3, 3, 3, some 0⟩ : Deployment) =
      ⟨"deployment \"default/nginx\" successfully rolled out\n", true, none⟩ ∧
    DeploymentStatusViewer.Status "default/nginx" 0
        (⟨1, 1, [], some 3, 1, 3, 1, some 0⟩ : Deployment) =
      ⟨"Waiting for deployment \"default/nginx\" rollout to finish: " ++
        "1 out of 3 new replicas have been updated...\n", false, none⟩ := by
  have h1 := deployment_status_cascade "default/nginx" 0
    (⟨1, 1, [], some 3, 3, 3, 3, some 0⟩ : Deployment) 3
    (by decide) (Or.inl (by decide))
    (by intro c hc; simp [GetDeploymentCondition] at hc) rfl
  have h2 := deployment_status_cascade "default/nginx" 0
    (⟨1, 1, [], some 3, 1, 3, 1, some 0⟩ : Deployment) 3
    (by decide) (Or.inl (by decide))
    (by intro c hc; simp [GetDeploymentCondition] at hc) rfl
  refine ⟨(h1.2.2.2 (by decide) (by decide) (by decide)).trans (by decide),
    (h2.1 (by decide)).trans (by decide)⟩

/-- The reporter loop final state is decided by the last reporter. -/
theorem updateIssueStatusLoop_last (labels : List String) :
    ∀ (ts : List StatusReporter) (st : String) (h : ts ≠ []),
      (updateIssueStatusLoop labels ts st).2 =
        if hasAll labels (ts.getLast h).completeLabels then "closed" else "open"
  | [], _, h => absurd rfl h
  | [t], st, _ => by
    unfold updateIssueStatusLoop updateReporter
    by_cases hc : hasAll labels t.completeLabels = true
    · simp [hc, updateIssueStatusLoop]
    · by_cases hi : hasAll labels t.inProgressLabels = true <;>
        simp [hc, hi, updateIssueStatusLoop]
  | t :: t2 :: ts, st, _ => by
    have ih := updateIssueStatusLoop_last labels (t2 :: ts)
      (updateReporter labels t).2 (by simp)
    unfold updateIssueStatusLoop
    rw [List.getLast_cons (by simp)]
    simpa using ih

/-- C3: for every non-empty configured ordered list of StatusReporters,
the issue state written back by Manager.UpdateIssueStatus equals the
state derived from the last reporter: "closed" when the label set
contains every complete label of that reporter, "open" otherwise;
earlier reporters do not affect it. -/
theorem issue_state_last_reporter_wins (labels : List String)
    (reporters : List StatusReporter) (h : reporters ≠ []) :
    (Manager.UpdateIssueStatus labels reporters).2 =
      if hasAll labels (reporters.getLast h).completeLabels then "closed"
      else "open" := by
  unfold Manager.UpdateIssueStatus
  exact updateIssueStatusLoop_last labels reporters "" h

theorem issue_state_last_reporter_wins_witness :
    (Manager.UpdateIssueStatus ["done-r1"]
        [⟨"R1", [], ["done-r1"], [], "", "", false⟩,
          ⟨"R2", ["doing-r2"], ["done-r2"], [], "", "", false⟩]).2 = "open" ∧
    ((Manager.UpdateIssueStatus ["done-r1"]
        [⟨"R1", [], ["done-r1"], [], "", "", false⟩,
          ⟨"R2", ["doing-r2"], ["done-r2"], [], "", "", false⟩]).1.map
      (fun t => t.status)) = ["Complete", "Pending"] := by
  have h := issue_state_last_reporter_wins ["done-r1"]
    [⟨"R1", [], ["done-r1"], [], "", "", false⟩,
      ⟨"R2", ["doing-r2"], ["done-r2"], [], "", "", false⟩] (by simp)
  exact ⟨h.trans (by decide), by decide⟩

/-! ### Polling-pass lemmas -/

theorem seqPollApplyStatus_eq (now : String) (r : StatusResult)
    (o : ManifestObject) (he : r.err = none) :
    seqPollApplyStatus now r o =
      if o.rolloutStatus != TrimSpace r.message then
        ({ o with
            done := r.done,
            rolloutStatus := TrimSpace r.message,
            rolloutStatusHistory :=
              o.rolloutStatusHistory ++ [histLine now (TrimSpace r.message)] },
          .polled r.done)
      else ({ o with done := r.done }, .polled r.done) := by
  simp only [seqPollApplyStatus, he]

theorem parPollApplyStatus_eq (now : String) (agg : Bool) (r : StatusResult)
    (o : ManifestObject) (he : r.err = none) :
    parPollApplyStatus now agg r o =
      if o.rolloutStatus != TrimSpace r.message then
        ({ o with
            done := agg,
            rolloutStatus := TrimSpace r.message,
            rolloutStatusHistory :=
              o.rolloutStatusHistory ++ [histLine now (TrimSpace r.message)] },
          .polled r.done)
      else ({ o with done := agg }, .polled r.done) := by
  simp only [parPollApplyStatus, he]

theorem seqPollApplyStatus_snd (now : String) (r : StatusResult)
    (o : ManifestObject) (he : r.err = none) :
    (seqPollApplyStatus now r o).2 = .polled r.done := by
  rw [seqPollApplyStatus_eq now r o he]
  split <;> rfl

theorem parPollApplyStatus_snd (now : String) (agg : Bool) (r : StatusResult)
    (o : ManifestObject) (he : r.err = none) :
    (parPollApplyStatus now agg r o).2 = .polled r.done := by
  rw [parPollApplyStatus_eq now agg r o he]
  split <;> rfl

theorem seqPollApplyStatus_done (now : String) (r : StatusResult)
    (o : ManifestObject) (he : r.err = none) :
    ((seqPollApplyStatus now r o).1).done = r.done := by
  rw [seqPollApplyStatus_eq now r o he]
  split <;> rfl

theorem parPollApplyStatus_done (now : String) (agg : Bool) (r : StatusResult)
    (o : ManifestObject) (he : r.err = none) :
    ((parPollApplyStatus now agg r o).1).done = agg := by
  rw [parPollApplyStatus_eq now agg r o he]
  split <;> rfl

theorem seqPollPass_cons_ok (now : String) (o : ManifestObject)
    (r : StatusResult) (rest : List (ManifestObject × StatusResult))
    (he : r.err = none) :
    seqPollPass now ((o, r) :: rest) =
      ((seqPollApplyStatus now r o).1 :: (seqPollPass now rest).1,
        (seqPollPass now rest).2) := by
  have h : seqPollApplyStatus now r o =
      ((seqPollApplyStatus now r o).1, .polled r.done) := by
    rw [← seqPollApplyStatus_snd now r o he]
  conv_lhs => rw [seqPollPass, h]

theorem parPollPass_cons_ok (now : String) (agg : Bool) (o : ManifestObject)
    (r : StatusResult) (rest : List (ManifestObject × StatusResult))
    (he : r.err = none) :
    parPollPass now agg ((o, r) :: rest) =
      ((parPollApplyStatus now agg r o).1 ::
          (parPollPass now (agg && r.done) rest).1,
        (parPollPass now (agg && r.done) rest).2) := by
  have h : parPollApplyStatus now agg r o =
      ((parPollApplyStatus now agg r o).1, .polled r.done) := by
    rw [← parPollApplyStatus_snd now agg r o he]
  conv_lhs => rw [parPollPass, h]

theorem parPollPass_doneFlags (now : String) :
    ∀ (l : List (ManifestObject × StatusResult)) (agg : Bool),
      (∀ q ∈ l, q.2.err = none) →
      (parPollPass now agg l).1.map (fun o => o.done) =
        aggregateFlagsSpec agg (l.map (fun q => q.2.done))
  | [], _, _ => rfl
  | (o, r) :: rest, agg, herr => by
    have he : r.err = none := herr (o, r) (by simp)
    rw [parPollPass_cons_ok now agg o r rest he]
    simp only [List.map_cons, aggregateFlagsSpec]
    rw [parPollApplyStatus_done now agg r o he,
      parPollPass_doneFlags now rest (agg && r.done)
        (fun q hq => herr q (by simp [hq]))]

theorem seqPollPass_doneFlags (now : String) :
    ∀ (l : List (ManifestObject × StatusResult)),
      (∀ q ∈ l, q.2.err = none) →
      (seqPollPass now l).1.map (fun o => o.done) =
        l.map (fun q => q.2.done)
  | [], _ => rfl
  | (o, r) :: rest, herr => by
    have he : r.err = none := herr (o, r) (by simp)
    rw [seqPollPass_cons_ok now o r rest he]
    simp only [List.map_cons]
    rw [seqPollApplyStatus_done now r o he,
      seqPollPass_doneFlags now rest (fun q hq => herr q (by simp [hq]))]

theorem aggregateFlagsSpec_getD :
    ∀ (ds : List Bool) (agg : Bool) (i : Nat), i < ds.length →
      (aggregateFlagsSpec agg ds).getD i false = (agg && (ds.take i).all id)
  | [], _, i, hi => absurd hi (by simp)
  | d :: ds, agg, 0, _ => by simp [aggregateFlagsSpec]
  | d :: ds, agg, i + 1, hi => by
    simp only [aggregateFlagsSpec, List.getD_cons_succ, List.take_succ_cons,
      List.all_cons]
    rw [aggregateFlagsSpec_getD ds (agg && d) i (by simpa using hi)]
    simp [Bool.and_assoc]

theorem aggregateFlagsSpec_eq_self :
    ∀ ds : List Bool, (aggregateFlagsSpec true ds = ds) ↔ ds.all id = true
  | [] => by simp [aggregateFlagsSpec]
  | d :: ds => by
    cases d with
    | true =>
      simp only [aggregateFlagsSpec, Bool.and_self, List.all_cons, id]
      rw [List.cons_eq_cons]
      simpa using aggregateFlagsSpec_eq_self ds
    | false => by_cases h : aggregateFlagsSpec false ds = ds <;>
        simp [aggregateFlagsSpec, h]

theorem getD_done_eq (i : Nat) :
    ∀ L : List ManifestObject,
      (L.getD i default).done = (L.map (fun o => o.done)).getD i false := by
  induction i with
  | zero => intro L; cases L <;> rfl
  | succ n ih => intro L; cases L with
    | nil => rfl
    | cons a t => simpa using ih t

theorem map_all_eq (f : ManifestObject × StatusResult → Bool) :
    ∀ l : List (ManifestObject × StatusResult),
      (l.map f).all id = l.all f
  | [] => rfl
  | a :: t => by simp [List.all_cons, map_all_eq f t]

/-- C10: in an error-free iteration of the parallel polling loop, each
object receives as its done flag the iteration-wide aggregate as it
stands when the object is polled (so position i receives the
conjunction of the engine results of the objects polled before it, not
its own engine result), the per-object flags all equal the engine
results exactly when every engine result is done, and the sequential
polling loop assigns each object its own engine-reported done value. -/
theorem parallel_flag_is_aggregate_not_own (now : String)
    (l : List (ManifestObject × StatusResult))
    (herr : ∀ q ∈ l, q.2.err = none) :
    ((parPollPass now true l).1.map (fun o => o.done) =
      aggregateFlagsSpec true (l.map (fun q => q.2.done))) ∧
    (∀ i, i < l.length →
      ((parPollPass now true l).1.getD i default).done =
        (l.take i).all (fun q => q.2.done)) ∧
    (((parPollPass now true l).1.map (fun o => o.done) =
        l.map (fun q => q.2.done)) ↔ l.all (fun q => q.2.done) = true) ∧
    ((seqPollPass now l).1.map (fun o => o.done) =
      l.map (fun q => q.2.done)) := by
  have hpar := parPollPass_doneFlags now l true herr
  refine ⟨hpar, ?_, ?_, seqPollPass_doneFlags now l herr⟩
  · intro i hi
    rw [getD_done_eq i, hpar,
      aggregateFlagsSpec_getD (l.map (fun q => q.2.done)) true i (by simpa using hi),
      Bool.true_and, ← List.map_take]
    exact map_all_eq _ (l.take i)
  · rw [hpar]
    constructor
    · intro h
      rw [← map_all_eq (fun q => q.2.done) l]
      exact (aggregateFlagsSpec_eq_self (l.map (fun q => q.2.done))).mp h
    · intro h
      exact (aggregateFlagsSpec_eq_self (l.map (fun q => q.2.done))).mpr
        (by rw [map_all_eq (fun q => q.2.done) l]; exact h)

theorem parallel_flag_is_aggregate_not_own_witness :
    ((parPollPass "t" true
        [(⟨.appsV1Deployment, "d1", "", "s1", [], false⟩, ⟨"s1", false, none⟩),
          (⟨.appsV1Deployment, "d2", "", "s2", [], false⟩, ⟨"s2", true, none⟩)]).1.map
      (fun o => o.done)) = [true, false] ∧
    ((seqPollPass "t"
        [(⟨.appsV1Deployment, "d1", "", "s1", [], false⟩, ⟨"s1", false, none⟩),
          (⟨.appsV1Deployment, "d2", "", "s2", [], false⟩, ⟨"s2", true, none⟩)]).1.map
      (fun o => o.done)) = [false, true] := by
  have h := parallel_flag_is_aggregate_not_own "t"
    [(⟨.appsV1Deployment, "d1", "", "s1", [], false⟩, ⟨"s1", false, none⟩),
      (⟨.appsV1Deployment, "d2", "", "s2", [], false⟩, ⟨"s2", true, none⟩)]
    (by decide)
  exact ⟨h.1.trans (by decide), (h.2.2.2).trans (by decide)⟩

theorem seqPollPass_unchanged (now : String) :
    ∀ A : List (ManifestObject × StatusResult),
      (∀ q ∈ A, q.2.err = none ∧ TrimSpace q.2.message = q.1.rolloutStatus) →
      seqPollPass now A =
        (A.map (fun q => { q.1 with done := q.2.done }), none)
  | [], _ => rfl
  | (o, r) :: rest, hA => by
    have he : r.err = none := (hA (o, r) (by simp)).1
    have hm : TrimSpace r.message = o.rolloutStatus := (hA (o, r) (by simp)).2
    rw [seqPollPass_cons_ok now o r rest he,
      seqPollPass_unchanged now rest (fun q hq => hA q (by simp [hq])),
      seqPollApplyStatus_eq now r o he, if_neg (by simp [hm])]
    rfl

theorem renderHistory_append (h : List String) (x : String) :
    renderHistory (h ++ [x]) = renderHistory h ++ renderHistoryLine x := by
  induction h with
  | nil => simp [renderHistory]
  | cons a t ih =>
    simp only [List.cons_append, List.append_eq, renderHistory,
      String.append_assoc] at ih ⊢
    rw [ih]

/-- C7: in an error-free sequential poll iteration in which exactly one
object's (trimmed) rollout-status message changed, the resulting
object list has that object's history equal to its previous history
with exactly one new timestamped line appended at the end, every other
object's history unchanged, and the rendered history blocks of the
comment body change accordingly: the changed object's block is its
previous block with one rendered bullet appended, all other blocks are
identical. -/
theorem poll_appends_single_history_line (now : String)
    (A B : List (ManifestObject × StatusResult)) (o : ManifestObject)
    (r : StatusResult)
    (hA : ∀ q ∈ A, q.2.err = none ∧ TrimSpace q.2.message = q.1.rolloutStatus)
    (hB : ∀ q ∈ B, q.2.err = none ∧ TrimSpace q.2.message = q.1.rolloutStatus)
    (he : r.err = none) (hch : TrimSpace r.message ≠ o.rolloutStatus) :
    ((seqPollPass now (A ++ (o, r) :: B)).1.map
        (fun x => x.rolloutStatusHistory) =
      A.map (fun q => q.1.rolloutStatusHistory) ++
        (o.rolloutStatusHistory ++ [histLine now (TrimSpace r.message)]) ::
        B.map (fun q => q.1.rolloutStatusHistory)) ∧
    ((seqPollPass now (A ++ (o, r) :: B)).1.map
        (fun x => renderHistory x.rolloutStatusHistory) =
      A.map (fun q => renderHistory q.1.rolloutStatusHistory) ++
        (renderHistory o.rolloutStatusHistory ++
          renderHistoryLine (histLine now (TrimSpace r.message))) ::
        B.map (fun q => renderHistory q.1.rolloutStatusHistory)) := by
  have key : (seqPollPass now (A ++ (o, r) :: B)).1.map
      (fun x => x.rolloutStatusHistory) =
    A.map (fun q => q.1.rolloutStatusHistory) ++
      (o.rolloutStatusHistory ++ [histLine now (TrimSpace r.message)]) ::
      B.map (fun q => q.1.rolloutStatusHistory) := by
    induction A with
    | nil =>
      simp only [List.nil_append, List.map_nil]
      rw [seqPollPass_cons_ok now o r B he,
        seqPollPass_unchanged now B hB,
        seqPollApplyStatus_eq now r o he, if_pos (by simp [Ne.symm hch])]
      simp [List.map_map]
    | cons a A ih =>
      obtain ⟨oa, ra⟩ := a
      have hea : ra.err = none := (hA (oa, ra) (by simp)).1
      have hma : TrimSpace ra.message = oa.rolloutStatus :=
        (hA (oa, ra) (by simp)).2
      have ih2 := ih (fun q hq => hA q (by simp [hq]))
      rw [List.cons_append, seqPollPass_cons_ok now oa ra (A ++ (o, r) :: B) hea,
        List.map_cons, seqPollApplyStatus_eq now ra oa hea,
        if_neg (by simp [hma]), ih2]
      rfl
  refine ⟨key, ?_⟩
  have : (seqPollPass now (A ++ (o, r) :: B)).1.map
      (fun x => renderHistory x.rolloutStatusHistory) =
    ((seqPollPass now (A ++ (o, r) :: B)).1.map
      (fun x => x.rolloutStatusHistory)).map renderHistory := by
    rw [List.map_map]; rfl
  rw [this, key]
  simp only [List.map_append, List.map_cons, List.map_map]
  rw [renderHistory_append]
  rfl

theorem poll_appends_single_history_line_witness :
    ((seqPollPass "02 Jan 18 15:04 UTC"
        [(⟨.appsV1Deployment, "d1", "", "ok1", ["h1"], false⟩,
            ⟨"ok1\n", true, none⟩),
          (⟨.appsV1Deployment, "d2", "", "old", ["h2"], false⟩,
            ⟨"new\n", false, none⟩),
          (⟨.appsV1StatefulSet, "d3", "", "ok3", [], false⟩,
            ⟨"ok3\n", true, none⟩)]).1.map
      (fun x => x.rolloutStatusHistory)) =
    [["h1"], ["h2", "*02 Jan 18 15:04 UTC* - `new`"], []] := by
  have h := poll_appends_single_history_line "02 Jan 18 15:04 UTC"
    [(⟨.appsV1Deployment, "d1", "", "ok1", ["h1"], false⟩, ⟨"ok1\n", true, none⟩)]
    [(⟨.appsV1StatefulSet, "d3", "", "ok3", [], false⟩, ⟨"ok3\n", true, none⟩)]
    (⟨.appsV1Deployment, "d2", "", "old", ["h2"], false⟩)
    (⟨"new\n", false, none⟩)
    (by decide) (by decide) (by decide) (by decide)
  exact h.1.trans (by decide)

/-! ### PR-log scan characterization -/

theorem syncPRs_unchanged_iff (p : MatchCriteria) (tracked : String)
    (gi : Nat → Option GhIssue) (ok : Nat → Bool) :
    ∀ lines : List (Option (String × Nat)),
      Poller.SyncPRs p tracked gi ok lines = .unchanged ↔
        ∃ pre n rest, lines = pre ++ some (tracked, n) :: rest ∧
          ∀ e ∈ pre, SkippedEntry p gi tracked e
  | [] => by
    constructor
    · intro h
      simp [Poller.SyncPRs] at h
    · rintro ⟨pre, n, rest, hEq, -⟩
      cases pre <;> simp at hEq
  | none :: rest => by
    rw [show Poller.SyncPRs p tracked gi ok (none :: rest) =
        Poller.SyncPRs p tracked gi ok rest from rfl,
      syncPRs_unchanged_iff p tracked gi ok rest]
    constructor
    · rintro ⟨pre, n, r2, hEq, hSk⟩
      refine ⟨none :: pre, n, r2, by rw [List.cons_append, hEq], ?_⟩
      intro e he
      rcases List.mem_cons.mp he with h | h
      · rw [h]; trivial
      · exact hSk e h
    · rintro ⟨pre, n, r2, hEq, hSk⟩
      cases pre with
      | nil => simp at hEq
      | cons e pre2 =>
        rw [List.cons_append] at hEq
        injection hEq with h1 h2
        exact ⟨pre2, n, r2, h2, fun e2 he2 => hSk e2 (List.mem_cons_of_mem _ he2)⟩
  | some (c, m) :: rest => by
    by_cases hc : c = tracked
    · subst hc
      have hres : Poller.SyncPRs p c gi ok (some (c, m) :: rest) = .unchanged := by
        simp [Poller.SyncPRs]
      rw [hres]
      constructor
      · intro _
        exact ⟨[], m, rest, rfl, by simp⟩
      · intro _
        rfl
    · have heq : Poller.SyncPRs p tracked gi ok (some (c, m) :: rest) =
          (match gi m with
          | none => .lookupFailure
          | some issue =>
            if prFilterMatch p issue then
              (if ok m then .changed c m else .lookupFailure)
            else Poller.SyncPRs p tracked gi ok rest) := by
        simp [Poller.SyncPRs, hc]
      rw [heq]
      cases hg : gi m with
      | none =>
        constructor
        · intro h
          simp at h
        · rintro ⟨pre, n, r2, hEq, hSk⟩
          cases pre with
          | nil =>
            rw [List.nil_append] at hEq
            injection hEq with h1 h2
            injection h1 with h1
            exact (hc (congrArg Prod.fst h1)).elim
          | cons e pre2 =>
            rw [List.cons_append] at hEq
            injection hEq with h1 h2
            have hsk := hSk e (by simp)
            rw [← h1] at hsk
            obtain ⟨-, i, hgi, -⟩ := hsk
            rw [hg] at hgi
            cases hgi
      | some issue =>
        simp only []
        by_cases hm : prFilterMatch p issue = true
        · rw [if_pos hm]
          constructor
          · intro h
            by_cases hok : ok m = true <;> simp [hok] at h
          · rintro ⟨pre, n, r2, hEq, hSk⟩
            cases pre with
            | nil =>
              rw [List.nil_append] at hEq
              injection hEq with h1 h2
              injection h1 with h1
              exact (hc (congrArg Prod.fst h1)).elim
            | cons e pre2 =>
              rw [List.cons_append] at hEq
              injection hEq with h1 h2
              have hsk := hSk e (by simp)
              rw [← h1] at hsk
              obtain ⟨-, i, hgi, hfm⟩ := hsk
              rw [hg] at hgi
              injection hgi with hgi
              rw [← hgi] at hfm
              exact absurd hm (by simp [hfm])
        · rw [if_neg hm, syncPRs_unchanged_iff p tracked gi ok rest]
          constructor
          · rintro ⟨pre, n, r2, hEq, hSk⟩
            refine ⟨some (c, m) :: pre, n, r2, by rw [List.cons_append, hEq], ?_⟩
            intro e he
            rcases List.mem_cons.mp he with h | h
            · rw [h]
              exact ⟨hc, issue, hg, by simpa using hm⟩
            · exact hSk e h
          · rintro ⟨pre, n, r2, hEq, hSk⟩
            cases pre with
            | nil =>
              rw [List.nil_append] at hEq
              injection hEq with h1 h2
              injection h1 with h1
              exact absurd (congrArg Prod.fst h1) hc
            | cons e pre2 =>
              rw [List.cons_append] at hEq
              injection hEq with h1 h2
              exact ⟨pre2, n, r2, h2,
                fun e2 he2 => hSk e2 (List.mem_cons_of_mem _ he2)⟩

theorem syncPRs_changed_iff (p : MatchCriteria) (tracked : String)
    (gi : Nat → Option GhIssue) (ok : Nat → Bool) (c0 : String) (n0 : Nat) :
    ∀ lines : List (Option (String × Nat)),
      Poller.SyncPRs p tracked gi ok lines = .changed c0 n0 ↔
        ∃ pre rest i, lines = pre ++ some (c0, n0) :: rest ∧ c0 ≠ tracked ∧
          gi n0 = some i ∧ prFilterMatch p i = true ∧ ok n0 = true ∧
          ∀ e ∈ pre, SkippedEntry p gi tracked e
  | [] => by
    constructor
    · intro h
      simp [Poller.SyncPRs] at h
    · rintro ⟨pre, rest, i, hEq, -⟩
      cases pre <;> simp at hEq
  | none :: rest => by
    rw [show Poller.SyncPRs p tracked gi ok (none :: rest) =
        Poller.SyncPRs p tracked gi ok rest from rfl,
      syncPRs_changed_iff p tracked gi ok c0 n0 rest]
    constructor
    · rintro ⟨pre, r2, i, hEq, hne, hgi, hfm, hok, hSk⟩
      refine ⟨none :: pre, r2, i, by rw [List.cons_append, hEq], hne, hgi, hfm,
        hok, ?_⟩
      intro e he
      rcases List.mem_cons.mp he with h | h
      · rw [h]; trivial
      · exact hSk e h
    · rintro ⟨pre, r2, i, hEq, hne, hgi, hfm, hok, hSk⟩
      cases pre with
      | nil => simp at hEq
      | cons e pre2 =>
        rw [List.cons_append] at hEq
        injection hEq with h1 h2
        exact ⟨pre2, r2, i, h2, hne, hgi, hfm, hok,
          fun e2 he2 => hSk e2 (List.mem_cons_of_mem _ he2)⟩
  | some (c, m) :: rest => by
    by_cases hc : c = tracked
    · subst hc
      have hres : Poller.SyncPRs p c gi ok (some (c, m) :: rest) = .unchanged := by
        simp [Poller.SyncPRs]
      rw [hres]
      constructor
      · intro h
        simp at h
      · rintro ⟨pre, r2, i, hEq, hne, -, -, -, hSk⟩
        cases pre with
        | nil =>
          rw [List.nil_append] at hEq
          injection hEq with h1 h2
          injection h1 with h1
          exact (hne (congrArg Prod.fst h1.symm)).elim
        | cons e pre2 =>
          rw [List.cons_append] at hEq
          injection hEq with h1 h2
          have hsk := hSk e (by simp)
          rw [← h1] at hsk
          exact (hsk.1 rfl).elim
    · have heq : Poller.SyncPRs p tracked gi ok (some (c, m) :: rest) =
          (match gi m with
          | none => .lookupFailure
          | some issue =>
            if prFilterMatch p issue then
              (if ok m then .changed c m else .lookupFailure)
            else Poller.SyncPRs p tracked gi ok rest) := by
        simp [Poller.SyncPRs, hc]
      rw [heq]
      cases hg : gi m with
      | none =>
        constructor
        · intro h
          simp at h
        · rintro ⟨pre, r2, i, hEq, hne, hgi, hfm, hok, hSk⟩
          cases pre with
          | nil =>
            rw [List.nil_append] at hEq
            injection hEq with h1 h2
            injection h1 with h1
            have hm0 : m = n0 := congrArg Prod.snd h1
            rw [← hm0, hg] at hgi
            cases hgi
          | cons e pre2 =>
            rw [List.cons_append] at hEq
            injection hEq with h1 h2
            have hsk := hSk e (by simp)
            rw [← h1] at hsk
            obtain ⟨-, i2, hgi2, -⟩ := hsk
            rw [hg] at hgi2
            cases hgi2
      | some issue =>
        simp only []
        by_cases hm : prFilterMatch p issue = true
        · rw [if_pos hm]
          by_cases hok : ok m = true
          · rw [if_pos hok]
            constructor
            · intro h
              injection h with hcc hnn
              exact ⟨[], rest, issue, by rw [List.nil_append, hcc, hnn],
                hcc ▸ hc, hnn ▸ hg, hm, hnn ▸ hok, by simp⟩
            · rintro ⟨pre, r2, i, hEq, hne, hgi, hfm, hok2, hSk⟩
              cases pre with
              | nil =>
                rw [List.nil_append] at hEq
                injection hEq with h1 h2
                injection h1 with h1
                have hcc : c = c0 := congrArg Prod.fst h1
                have hnn : m = n0 := congrArg Prod.snd h1
                rw [hcc, hnn]
              | cons e pre2 =>
                rw [List.cons_append] at hEq
                injection hEq with h1 h2
                have hsk := hSk e (by simp)
                rw [← h1] at hsk
                obtain ⟨-, i2, hgi2, hfm2⟩ := hsk
                rw [hg] at hgi2
                injection hgi2 with hgi2
                rw [← hgi2] at hfm2
                exact absurd hm (by simp [hfm2])
          · rw [if_neg hok]
            constructor
            · intro h
              simp at h
            · rintro ⟨pre, r2, i, hEq, hne, hgi, hfm, hok2, hSk⟩
              cases pre with
              | nil =>
                rw [List.nil_append] at hEq
                injection hEq with h1 h2
                injection h1 with h1
                have hm0 : m = n0 := congrArg Prod.snd h1
                rw [← hm0] at hok2
                exact (hok hok2).elim
              | cons e pre2 =>
                rw [List.cons_append] at hEq
                injection hEq with h1 h2
                have hsk := hSk e (by simp)
                rw [← h1] at hsk
                obtain ⟨-, i2, hgi2, hfm2⟩ := hsk
                rw [hg] at hgi2
                injection hgi2 with hgi2
                rw [← hgi2] at hfm2
                exact absurd hm (by simp [hfm2])
        · rw [if_neg hm, syncPRs_changed_iff p tracked gi ok c0 n0 rest]
          constructor
          · rintro ⟨pre, r2, i, hEq, hne, hgi, hfm, hok2, hSk⟩
            refine ⟨some (c, m) :: pre, r2, i, by rw [List.cons_append, hEq],
              hne, hgi, hfm, hok2, ?_⟩
            intro e he
            rcases List.mem_cons.mp he with h | h
            · rw [h]
              exact ⟨hc, issue, hg, by simpa using hm⟩
            · exact hSk e h
          · rintro ⟨pre, r2, i, hEq, hne, hgi, hfm, hok2, hSk⟩
            cases pre with
            | nil =>
              rw [List.nil_append] at hEq
              injection hEq with h1 h2
              injection h1 with h1
              have hm0 : m = n0 := congrArg Prod.snd h1
              rw [← hm0, hg] at hgi
              injection hgi with hgi
              rw [← hgi] at hfm
              exact (hm hfm).elim
            | cons e pre2 =>
              rw [List.cons_append] at hEq
              injection hEq with h1 h2
              exact ⟨pre2, r2, i, h2, hne, hgi, hfm, hok2,
                fun e2 he2 => hSk e2 (List.mem_cons_of_mem _ he2)⟩

theorem syncPRs_noMatch_iff (p : MatchCriteria) (tracked : String)
    (gi : Nat → Option GhIssue) (ok : Nat → Bool) :
    ∀ lines : List (Option (String × Nat)),
      Poller.SyncPRs p tracked gi ok lines = .noMatch ↔
        ∀ e ∈ lines, SkippedEntry p gi tracked e
  | [] => by
    simp [Poller.SyncPRs]
  | none :: rest => by
    rw [show Poller.SyncPRs p tracked gi ok (none :: rest) =
        Poller.SyncPRs p tracked gi ok rest from rfl,
      syncPRs_noMatch_iff p tracked gi ok rest]
    constructor
    · intro h e he
      rcases List.mem_cons.mp he with h2 | h2
      · rw [h2]; trivial
      · exact h e h2
    · intro h e he
      exact h e (List.mem_cons_of_mem _ he)
  | some (c, m) :: rest => by
    by_cases hc : c = tracked
    · subst hc
      have hres : Poller.SyncPRs p c gi ok (some (c, m) :: rest) = .unchanged := by
        simp [Poller.SyncPRs]
      rw [hres]
      constructor
      · intro h
        simp at h
      · intro h
        have hsk := h (some (c, m)) (by simp)
        exact (hsk.1 rfl).elim
    · have heq : Poller.SyncPRs p tracked gi ok (some (c, m) :: rest) =
          (match gi m with
          | none => .lookupFailure
          | some issue =>
            if prFilterMatch p issue then
              (if ok m then .changed c m else .lookupFailure)
            else Poller.SyncPRs p tracked gi ok rest) := by
        simp [Poller.SyncPRs, hc]
      rw [heq]
      cases hg : gi m with
      | none =>
        constructor
        · intro h
          simp at h
        · intro h
          have hsk := h (some (c, m)) (by simp)
          obtain ⟨-, i, hgi, -⟩ := hsk
          rw [hg] at hgi
          cases hgi
      | some issue =>
        simp only []
        by_cases hm : prFilterMatch p issue = true
        · rw [if_pos hm]
          constructor
          · intro h
            by_cases hok : ok m = true <;> simp [hok] at h
          · intro h
            have hsk := h (some (c, m)) (by simp)
            obtain ⟨-, i, hgi, hfm⟩ := hsk
            rw [hg] at hgi
            injection hgi with hgi
            rw [← hgi] at hfm
            exact absurd hm (by simp [hfm])
        · rw [if_neg hm, syncPRs_noMatch_iff p tracked gi ok rest]
          constructor
          · intro h e he
            rcases List.mem_cons.mp he with h2 | h2
            · rw [h2]
              exact ⟨hc, issue, hg, by simpa using hm⟩
            · exact h e h2
          · intro h e he
            exact h e (List.mem_cons_of_mem _ he)

/-- C1 counterexample: with tracked commit c0, a topmost parseable line
whose hash is c1 and whose issue fails the configured label criteria,
and a second parseable line whose hash equals the tracked commit, the
scan reports "unchanged" although the topmost parseable line hash
differs from the tracked commit — the claim as stated instead requires
either adopting a matching candidate or failing with the
no-matching-PRs error in this situation. -/
theorem syncPRs_unchanged_not_topmost :
    Poller.SyncPRs ⟨["rollout"], "", "", ""⟩ "c0"
        (fun num => some ⟨num, num, "open", [], [], "", []⟩)
        (fun _ => true)
        [some ("c1", 1), some ("c0", 2)] = .unchanged ∧
    firstParsedLine [some ("c1", 1), some ("c0", 2)] = some ("c1", 1) ∧
    ("c1" : String) ≠ "c0" ∧
    Poller.SyncPRs ⟨["rollout"], "", "", ""⟩ "c0"
        (fun num => some ⟨num, num, "open", [], [], "", []⟩)
        (fun _ => true)
        [some ("c1", 1), some ("c0", 2)] ≠ .noMatch := by
  refine ⟨?_, ?_, ?_, ?_⟩ <;> decide

/-- C1 (amended): the PR-log scan walks the parseable merge-commit
lines top-down and, per line, first compares the hash against the
previously tracked commit — reporting "unchanged" at the first line
whose hash equals it, even when that line is not the topmost — and
only otherwise applies the MatchCriteria filter to the line's issue,
adopting the first candidate that passes (reported as changed) and
skipping candidates that fail; the log being exhausted without either
event fails with the no-matching-PRs error.  Formally: unchanged iff
some parseable line carries the tracked hash and every earlier line is
skipped (unparseable, or hash differing and issue failing the
criteria); changed (c, n) iff a line (c, n) with c differing from the
tracked hash has an issue passing the criteria and a successful PR
fetch, and every earlier line is skipped; no-match iff every line is
skipped. -/
theorem syncPRs_scan_characterization (p : MatchCriteria) (tracked : String)
    (gi : Nat → Option GhIssue) (ok : Nat → Bool)
    (lines : List (Option (String × Nat))) :
    (Poller.SyncPRs p tracked gi ok lines = .unchanged ↔
      ∃ pre n rest, lines = pre ++ some (tracked, n) :: rest ∧
        ∀ e ∈ pre, SkippedEntry p gi tracked e) ∧
    (∀ c0 n0, Poller.SyncPRs p tracked gi ok lines = .changed c0 n0 ↔
      ∃ pre rest i, lines = pre ++ some (c0, n0) :: rest ∧ c0 ≠ tracked ∧
        gi n0 = some i ∧ prFilterMatch p i = true ∧ ok n0 = true ∧
        ∀ e ∈ pre, SkippedEntry p gi tracked e) ∧
    (Poller.SyncPRs p tracked gi ok lines = .noMatch ↔
      ∀ e ∈ lines, SkippedEntry p gi tracked e) :=
  ⟨syncPRs_unchanged_iff p tracked gi ok lines,
    fun c0 n0 => syncPRs_changed_iff p tracked gi ok c0 n0 lines,
    syncPRs_noMatch_iff p tracked gi ok lines⟩

theorem syncIssuesAdopt_find_none (st : TrackedState) (curr : GhIssue)
    (getPr : Nat → Option Nat) (hr : rolloutRegexFind curr.body = none) :
    Poller.syncIssuesAdopt st curr getPr =
      ({ st with issue := some curr },
        .error "Expected rollout marker prefix in issue body") := by
  unfold Poller.syncIssuesAdopt
  rw [hr]

theorem syncIssuesAdopt_find_some (st : TrackedState) (curr : GhIssue)
    (getPr : Nat → Option Nat) (prNum : Nat) (cc : List Char)
    (hr : rolloutRegexFind curr.body = some (prNum, cc)) :
    Poller.syncIssuesAdopt st curr getPr =
      syncIssuesResolve st curr getPr prNum cc := by
  unfold Poller.syncIssuesAdopt
  rw [hr]

theorem syncIssuesResolve_pr_none (st : TrackedState) (curr : GhIssue)
    (getPr : Nat → Option Nat) (prNum : Nat) (cc : List Char)
    (hp : getPr prNum = none) :
    syncIssuesResolve st curr getPr prNum cc =
      ({ st with issue := some curr }, .error "could not get pull request") := by
  unfold syncIssuesResolve
  rw [hp]

theorem syncIssuesResolve_pr_some (st : TrackedState) (curr : GhIssue)
    (getPr : Nat → Option Nat) (prNum : Nat) (cc : List Char) (prN : Nat)
    (hp : getPr prNum = some prN) :
    syncIssuesResolve st curr getPr prNum cc =
      ({ st with issue := some curr, pr := some prN, commit := cc },
        if curr.state == "closed" then Except.ok false else Except.ok true) := by
  unfold syncIssuesResolve
  rw [hp]
  by_cases hcl : curr.state == "closed" <;> simp [hcl]

/-- C4 counterexample: in issue mode, when the newest matching issue's
body lacks the required pull-request/commit markers, the sync call
fails — but the tracked issue has already been reassigned to that
issue before the marker check, so the TrackedState exposed afterwards
differs from the state before the call, contradicting the claim that
it is mutated only by a successful sync. -/
theorem syncIssues_failed_sync_mutates_issue :
    (Poller.SyncIssues
        (⟨some ⟨1, 1, "open", [], [], "", []⟩, some 7, "aaa".data⟩ :
          TrackedState)
        [⟨2, 2, "open", [], [], "", "garbage".data⟩]
        (fun _ => some 7)).2 =
      .error "Expected rollout marker prefix in issue body" ∧
    (Poller.SyncIssues
        (⟨some ⟨1, 1, "open", [], [], "", []⟩, some 7, "aaa".data⟩ :
          TrackedState)
        [⟨2, 2, "open", [], [], "", "garbage".data⟩]
        (fun _ => some 7)).1.issue =
      some ⟨2, 2, "open", [], [], "", "garbage".data⟩ ∧
    (Poller.SyncIssues
        (⟨some ⟨1, 1, "open", [], [], "", []⟩, some 7, "aaa".data⟩ :
          TrackedState)
        [⟨2, 2, "open", [], [], "", "garbage".data⟩]
        (fun _ => some 7)).1 ≠
      (⟨some ⟨1, 1, "open", [], [], "", []⟩, some 7, "aaa".data⟩ :
        TrackedState) := by
  refine ⟨rfl, by decide, by decide⟩

/-- C4 (amended): the tracked pull request and commit are mutated only
by a successful sync — whenever Poller.SyncIssues returns an error,
they are the same afterwards as before the call; the tracked issue,
however, is reassigned to the newest listed issue before the marker
validation, so it can change even on a failed sync (as the
counterexample shows). -/
theorem syncIssues_error_preserves_pr_and_commit (st : TrackedState)
    (issues : List GhIssue) (getPr : Nat → Option Nat) (e : String)
    (h : (Poller.SyncIssues st issues getPr).2 = .error e) :
    (Poller.SyncIssues st issues getPr).1.pr = st.pr ∧
    (Poller.SyncIssues st issues getPr).1.commit = st.commit := by
  cases issues with
  | nil => exact ⟨rfl, rfl⟩
  | cons curr rest =>
    have hstep : Poller.SyncIssues st (curr :: rest) getPr =
        (if issueUnchangedCheck st curr then (st, Except.ok false)
        else Poller.syncIssuesAdopt st curr getPr) := rfl
    rw [hstep] at h ⊢
    by_cases hchk : issueUnchangedCheck st curr
    · rw [if_pos hchk] at h
      cases h
    · rw [if_neg hchk] at h ⊢
      cases hr : rolloutRegexFind curr.body with
      | none =>
        rw [syncIssuesAdopt_find_none st curr getPr hr]
        exact ⟨rfl, rfl⟩
      | some pc =>
        obtain ⟨prNum, cc⟩ := pc
        rw [syncIssuesAdopt_find_some st curr getPr prNum cc hr] at h ⊢
        cases hp : getPr prNum with
        | none =>
          rw [syncIssuesResolve_pr_none st curr getPr prNum cc hp]
          exact ⟨rfl, rfl⟩
        | some prN =>
          rw [syncIssuesResolve_pr_some st curr getPr prNum cc prN hp] at h
          by_cases hcl : curr.state == "closed" <;> simp [hcl] at h

theorem syncIssues_error_preserves_pr_and_commit_witness :
    (Poller.SyncIssues
        (⟨some ⟨1, 1, "open", [], [], "", []⟩, some 7, "aaa".data⟩ :
          TrackedState)
        [⟨2, 2, "open", [], [], "", "garbage".data⟩]
        (fun _ => some 7)).1.pr = some 7 ∧
    (Poller.SyncIssues
        (⟨some ⟨1, 1, "open", [], [], "", []⟩, some 7, "aaa".data⟩ :
          TrackedState)
        [⟨2, 2, "open", [], [], "", "garbage".data⟩]
        (fun _ => some 7)).1.commit = "aaa".data := by
  have h := syncIssues_error_preserves_pr_and_commit
    (⟨some ⟨1, 1, "open", [], [], "", []⟩, some 7, "aaa".data⟩ : TrackedState)
    [⟨2, 2, "open", [], [], "", "garbage".data⟩]
    (fun _ => some 7)
    "Expected rollout marker prefix in issue body"
    rfl
  exact ⟨h.1.trans (by decide), h.2.trans (by decide)⟩

/-! ### Marker round-trip lemmas -/

theorem stripLit_append : ∀ (l s : List Char), stripLit l (l ++ s) = some s
  | [], s => rfl
  | c :: l, s => by
    simp [stripLit, stripLit_append l s]

theorem takeWhile_split (p : Char → Bool) :
    ∀ (A B : List Char), (∀ c ∈ A, p c = true) →
      (∀ b, B.head? = some b → p b = false) →
      (A ++ B).takeWhile p = A ∧ (A ++ B).dropWhile p = B
  | [], B => by
    intro _ hB
    cases B with
    | nil => exact ⟨rfl, rfl⟩
    | cons b B2 =>
      have hb := hB b rfl
      constructor
      · simp [List.takeWhile_cons, hb]
      · simp [List.dropWhile_cons, hb]
  | a :: A, B => by
    intro hA hB
    have hpa : p a = true := hA a (by simp)
    obtain ⟨h1, h2⟩ := takeWhile_split p A B (fun c hc => hA c (by simp [hc])) hB
    constructor
    · simp [List.takeWhile_cons, hpa, h1]
    · simp [List.dropWhile_cons, hpa, h2]

theorem takeWhile1_exact (p : Char → Bool) (A B : List Char)
    (hA : ∀ c ∈ A, p c = true)
    (hB : ∀ b, B.head? = some b → p b = false) (hne : A ≠ []) :
    takeWhile1 p (A ++ B) = some (A, B) := by
  obtain ⟨h1, h2⟩ := takeWhile_split p A B hA hB
  unfold takeWhile1
  rw [h1, h2]
  simp [hne]

theorem digitChar_isDigit : ∀ d, d < 10 → (digitChar d).isDigit = true := by
  decide

theorem digitChar_val : ∀ d, d < 10 → (digitChar d).toNat - 48 = d := by
  decide

theorem natCharsAux_eq : ∀ (fuel n : Nat), n ≤ fuel →
    natCharsAux fuel n = ((Nat.digits 10 n).reverse).map digitChar
  | fuel, 0, _ => by cases fuel <;> simp [natCharsAux]
  | 0, n + 1, h => absurd h (by omega)
  | fuel + 1, n + 1, h => by
    unfold natCharsAux
    rw [if_neg (by omega)]
    have hdiv : (n + 1) / 10 ≤ fuel := by
      have := Nat.div_lt_self (Nat.succ_pos n) (by omega : 1 < 10)
      omega
    rw [natCharsAux_eq fuel ((n + 1) / 10) hdiv,
      Nat.digits_def' (by omega : 1 < 10) (Nat.succ_pos n)]
    simp

theorem natChars_ne_nil (n : Nat) : natChars n ≠ [] := by
  unfold natChars
  by_cases h : n = 0
  · simp [h]
  · rw [if_neg h, natCharsAux_eq n n le_rfl]
    simp [Nat.digits_ne_nil_iff_ne_zero, h]

theorem natChars_all_digit (n : Nat) :
    ∀ c ∈ natChars n, Char.isDigit c = true := by
  unfold natChars
  by_cases h : n = 0
  · simp [h]
  · rw [if_neg h, natCharsAux_eq n n le_rfl]
    intro c hc
    rw [List.mem_map] at hc
    obtain ⟨d, hd, rfl⟩ := hc
    rw [List.mem_reverse] at hd
    exact digitChar_isDigit d (Nat.digits_lt_base (by omega) hd)

theorem atoi_digits : ∀ (L : List Nat), (∀ d ∈ L, d < 10) →
    atoiChars ((L.reverse).map digitChar) = Nat.ofDigits 10 L
  | [], _ => rfl
  | d :: L, h => by
    have hd : d < 10 := h d (by simp)
    have ih := atoi_digits L (fun x hx => h x (by simp [hx]))
    unfold atoiChars at ih ⊢
    rw [List.reverse_cons, List.map_append, List.foldl_append, ih,
      Nat.ofDigits_cons]
    simp only [List.map_cons, List.map_nil, List.foldl_cons, List.foldl_nil]
    rw [digitChar_val d hd]
    ring

theorem atoiChars_natChars (n : Nat) : atoiChars (natChars n) = n := by
  by_cases h : n = 0
  · subst h
    decide
  · unfold natChars
    rw [if_neg h, natCharsAux_eq n n le_rfl,
      atoi_digits _ (fun d hd => Nat.digits_lt_base (by omega) hd),
      Nat.ofDigits_digits]

theorem isSpaceGo_not_digit (c : Char) (h : isSpaceGo c = true) :
    Char.isDigit c = false := by
  unfold isSpaceGo at h
  simp only [Bool.or_eq_true, beq_iff_eq] at h
  rcases h with (((h | h) | h) | h) | h <;> subst h <;> decide

theorem isSpaceGo_not_lowerAlnum (c : Char) (h : isSpaceGo c = true) :
    isLowerAlnum c = false := by
  unfold isSpaceGo at h
  simp only [Bool.or_eq_true, beq_iff_eq] at h
  rcases h with (((h | h) | h) | h) | h <;> subst h <;> decide

/-- The regex matches at the start of any string of the shape
literal1 ++ digits ++ spaces ++ literal2 ++ lower-alnums ++ spaces ++
rest (rest not starting with whitespace), capturing exactly the digit
and lower-alnum runs; by disjointness of the adjacent character
classes this is the unique greedy match. -/
theorem rolloutMatchAt_shape (digits hs s1 s2 rest : List Char)
    (hd : digits ≠ []) (hda : ∀ c ∈ digits, Char.isDigit c = true)
    (hs1 : s1 ≠ []) (hs1a : ∀ c ∈ s1, isSpaceGo c = true)
    (hhne : hs ≠ []) (hha : ∀ c ∈ hs, isLowerAlnum c = true)
    (hs2 : s2 ≠ []) (hs2a : ∀ c ∈ s2, isSpaceGo c = true)
    (hrest : ∀ b, rest.head? = some b → isSpaceGo b = false) :
    rolloutMatchAt ("[pull-request]: #".data ++ (digits ++ (s1 ++
        ("[commit]: ".data ++ (hs ++ (s2 ++ rest)))))) =
      some (atoiChars digits, hs) := by
  have hBdig : ∀ b, (s1 ++ ("[commit]: ".data ++ (hs ++ (s2 ++ rest)))).head? =
      some b → Char.isDigit b = false := by
    intro b hb
    cases s1 with
    | nil => exact absurd rfl hs1
    | cons a t =>
      rw [List.cons_append] at hb
      injection hb with hb
      rw [← hb]
      exact isSpaceGo_not_digit a (hs1a a (by simp))
  have hBsp1 : ∀ b, ("[commit]: ".data ++ (hs ++ (s2 ++ rest))).head? =
      some b → isSpaceGo b = false := by
    intro b hb
    rw [show "[commit]: ".data ++ (hs ++ (s2 ++ rest)) =
      '[' :: ("commit]: ".data ++ (hs ++ (s2 ++ rest))) from rfl] at hb
    injection hb with hb
    rw [← hb]
    decide
  have hBh : ∀ b, (s2 ++ rest).head? = some b → isLowerAlnum b = false := by
    intro b hb
    cases s2 with
    | nil => exact absurd rfl hs2
    | cons a t =>
      rw [List.cons_append] at hb
      injection hb with hb
      rw [← hb]
      exact isSpaceGo_not_lowerAlnum a (hs2a a (by simp))
  unfold rolloutMatchAt
  rw [stripLit_append]
  simp only [Option.some_bind]
  rw [takeWhile1_exact Char.isDigit digits
    (s1 ++ ("[commit]: ".data ++ (hs ++ (s2 ++ rest)))) hda hBdig hd]
  simp only [Option.some_bind]
  rw [takeWhile1_exact isSpaceGo s1
    ("[commit]: ".data ++ (hs ++ (s2 ++ rest))) hs1a hBsp1 hs1]
  simp only [Option.some_bind]
  rw [stripLit_append]
  simp only [Option.some_bind]
  rw [takeWhile1_exact isLowerAlnum hs (s2 ++ rest) hha hBh hhne]
  simp only [Option.some_bind]
  rw [takeWhile1_exact isSpaceGo s2 rest hs2a hrest hs2]
  rfl

theorem rolloutRegexFind_of_matchAt (s : List Char) (r : Nat × List Char)
    (h : rolloutMatchAt s = some r) : rolloutRegexFind s = some r := by
  cases s with
  | nil =>
    rw [show rolloutMatchAt [] = none from rfl] at h
    cases h
  | cons c t =>
    have hstep : rolloutRegexFind (c :: t) =
        (match rolloutMatchAt (c :: t) with
        | some r => some r
        | none => rolloutRegexFind t) := by
      simp only [rolloutRegexFind]
    rw [hstep, h]

/-- C6: round trip of the issue-body marker format — for every
pull-request number n and non-empty commit hash consisting of
lowercase letters and digits, the body rendered by bodyTemplate
(whatever the rendered reporter block is) is accepted by rolloutRegex,
and parsing extracts exactly n as the pull-request number and the hash
as the commit. -/
theorem body_marker_roundtrip (n : Nat) (hs tail : List Char)
    (hne : hs ≠ []) (hh : ∀ c ∈ hs, isLowerAlnum c = true) :
    rolloutRegexFind (bodyTemplate n hs tail) = some (n, hs) := by
  have hbody : bodyTemplate n hs tail =
      "[pull-request]: #".data ++ (natChars n ++ (['\n'] ++
        ("[commit]: ".data ++ (hs ++ (['\n', '\n'] ++
          ("Rollout #".data ++ (natChars n ++ ("\n\n".data ++ tail)))))))) := by
    unfold bodyTemplate
    simp only [List.append_assoc]
    rfl
  have hrest : ∀ b,
      ("Rollout #".data ++ (natChars n ++ ("\n\n".data ++ tail))).head? =
        some b → isSpaceGo b = false := by
    intro b hb
    rw [show "Rollout #".data ++ (natChars n ++ ("\n\n".data ++ tail)) =
      'R' :: ("ollout #".data ++ (natChars n ++ ("\n\n".data ++ tail)))
      from rfl] at hb
    injection hb with hb
    rw [← hb]
    decide
  have hmatch : rolloutMatchAt (bodyTemplate n hs tail) = some (n, hs) := by
    rw [hbody, rolloutMatchAt_shape (natChars n) hs ['\n'] ['\n', '\n']
      ("Rollout #".data ++ (natChars n ++ ("\n\n".data ++ tail)))
      (natChars_ne_nil n) (natChars_all_digit n) (by simp) (by decide)
      hne hh (by simp) (by decide) hrest, atoiChars_natChars]
  exact rolloutRegexFind_of_matchAt (bodyTemplate n hs tail) (n, hs) hmatch

theorem body_marker_roundtrip_witness :
    rolloutRegexFind (bodyTemplate 42 "abc123".data
        "- R1 - Pending\n".data) = some (42, "abc123".data) :=
  body_marker_roundtrip 42 "abc123".data "- R1 - Pending\n".data
    (by decide) (by decide)

end ContinuousApply
